import Mathlib

/-!
# Verification of the istanbul-to-vscode coverage core

Shallow embedding of `src/index.ts` (the canonical evolution) and of the
legacy `IstanbulCoverage` class (`src/unnamed/part_000`), together with
theorems settling the behavioural claims about range resolution, detail
extraction, summary aggregation, count-mode policy and report loading.

Conventions of the embedding:
* asynchronous functions are flattened to their resolved values (the code
  has no shared mutable state across the fan-out, so concurrent joins are
  value-level);
* JS `undefined` results become `Option.none`;
* JS numbers occurring here are integers and are modelled by `Int`
  (hit counts, line/column coordinates); entry tallies are `Nat`;
* JS objects iterated with `Object.entries`/`Object.values` are modelled
  as association lists in iteration order;
* host (`vscode`) classes are plain records: the host's own behaviour is an
  external collaborator and is not part of the verified core.
-/

namespace IstanbulToVscode

/-- A vscode URI, modelled by its string rendering. -/
abbrev Uri := String

/-- `vscode.Position`: 0-based line/character pair. Modelled as a plain
record (the host class is an external collaborator). -/
structure Position where
  line : Int
  column : Int
deriving DecidableEq, Repr

/-- `vscode.Range`: a start/end pair of positions. -/
structure VscRange where
  start : Position
  «end» : Position
deriving DecidableEq, Repr

/-- `vscode.Location`: a URI plus a range. `new vscode.Location(uri, pos)`
with a single position yields the zero-length range at that position. -/
structure VscLocation where
  uri : Uri
  range : VscRange
deriving DecidableEq, Repr

/-- `new vscode.Location(uri, position)` — zero-length range at `position`. -/
def VscLocation.ofPosition (uri : Uri) (p : Position) : VscLocation :=
  ⟨uri, ⟨p, p⟩⟩

/-- An Istanbul report location. The report stores 1-based lines and
0-based columns; a branch outcome with no real start has `line = none`
(JS `undefined`, tested by the source as `l.start.line !== undefined`). -/
structure IstanbulLocation where
  line : Option Int
  column : Int
deriving DecidableEq, Repr

/-- An Istanbul report range. -/
structure IstanbulRange where
  start : IstanbulLocation
  «end» : IstanbulLocation
deriving DecidableEq, Repr

/-- One branch group of `branchMap`: the controlling construct's span, its
type (`"if"`, `"cond"`, ...) and one range per outcome. -/
structure BranchGroup where
  loc : IstanbulRange
  type : String
  locations : List IstanbulRange
deriving DecidableEq, Repr

/-- One `fnMap` entry as consumed by the core (`stmt.name`, `stmt.loc`). -/
structure FnMapEntry where
  name : String
  loc : IstanbulRange
deriving DecidableEq, Repr

/-- `FileCoverageData`: the raw per-file report. Tables are association
lists in `Object.entries` iteration order. -/
structure FileCoverageData where
  path : String
  statementMap : List (String × IstanbulRange)
  s : List (String × Int)
  branchMap : List (String × BranchGroup)
  b : List (String × List Int)
  fnMap : List (String × FnMapEntry)
  f : List (String × Int)

/-- `IIstanbulCoverageOptions` with the async callbacks flattened:
a configured `mapLocation` takes the compiled URI and an (already 0-based)
position and yields an optional mapped location. -/
structure IIstanbulCoverageOptions where
  removeCoverageDataAtEndOfRun : Bool
  booleanCounts : Bool
  mapFileUri : Option (Uri → Option Uri)
  mapLocation : Option (Uri → Position → Option VscLocation)

/-- The context's built-in defaults (src/index.ts:51-54). -/
def defaultOptions : IIstanbulCoverageOptions :=
  { removeCoverageDataAtEndOfRun := true
    booleanCounts := false
    mapFileUri := none
    mapLocation := none }

/-- The value of `mapCount` (src/index.ts:219): JS `boolean | number`. -/
inductive CountValue where
  | bool (b : Bool)
  | num (n : Int)
deriving DecidableEq, Repr

/-- Embeds `mapCount` (src/index.ts:219):
`opts.booleanCounts ? n > 0 : n`. -/
def mapCount (opts : IIstanbulCoverageOptions) (n : Int) : CountValue :=
  if opts.booleanCounts then .bool (decide (n > 0)) else .num n

/-- Embeds `mapLocation` (src/index.ts:208-217). The source builds
`new vscode.Position(location.line - 1, location.column)`; when an
`opts.mapLocation` callback is configured its (possibly empty) result is
returned without any fallback (the source returns the promise itself, so a
resolved `undefined` propagates); only an unconfigured callback produces the
identity `vscode.Location`. The library only ever calls this on locations
whose line is defined (call sites guard `l.start.line !== undefined`), so
the `getD 0` completion of the `undefined` case is unreachable in the
embedded call paths. -/
def mapLocation (opts : IIstanbulCoverageOptions) (uri : Uri)
    (location : IstanbulLocation) : Option VscLocation :=
  let position : Position := ⟨location.line.getD 0 - 1, location.column⟩
  match opts.mapLocation with
  | some m => m uri position
  | none => some (VscLocation.ofPosition uri position)

/-- Embeds `mapRange` (src/index.ts:192-206): both endpoints are mapped,
then `if (start && end)` builds the range from the mapped start's own start
to the mapped end's own end; `start || end` falls back to the one mapped
location's own range; otherwise `undefined`. -/
def mapRange (opts : IIstanbulCoverageOptions) (uri : Uri)
    (range : IstanbulRange) : Option VscRange :=
  match mapLocation opts uri range.start, mapLocation opts uri range.«end» with
  | some s, some e => some ⟨s.range.start, e.range.«end»⟩
  | some s, none => some s.range
  | none, some e => some e.range
  | none, none => none

/-- `vscode.BranchCoverage` as constructed at src/index.ts:150-156. -/
structure BranchCoverage where
  executed : CountValue
  location : VscRange
  label : Option String
deriving DecidableEq, Repr

/-- `vscode.FileCoverageDetail`: either a `StatementCoverage` (possibly
carrying branch coverage) or a `DeclarationCoverage`. -/
inductive FileCoverageDetail where
  | statement (executed : CountValue) (location : VscRange)
      (branchCoverage : List BranchCoverage)
  | declaration (name : String) (executed : CountValue) (location : VscRange)
deriving DecidableEq, Repr

/-- Per-outcome resolution inside the branch loop (src/index.ts:133-140):
an outcome with a real start line is resolved directly; one without is
replaced by the zero-length synthetic range `branch.loc.end → branch.loc.end`
and that synthetic range is resolved instead. -/
def resolveBranchLocation (opts : IIstanbulCoverageOptions) (uri : Uri)
    (branch : BranchGroup) (l : IstanbulRange) : Option VscRange :=
  if l.start.line.isSome then mapRange opts uri l
  else mapRange opts uri ⟨branch.loc.«end», branch.loc.«end»⟩

/-- Embeds the `for (const [i, location] of branches.entries())` loop
(src/index.ts:145-157): accumulates `hits += b[key][i]` and pushes one
`BranchCoverage` per resolved outcome, labelling outcome 0 `"if"` and later
outcomes `"else"` when the group's type is `"if"`, no label otherwise. -/
def buildBranchCoverage (opts : IIstanbulCoverageOptions) (type : String)
    (counts : List Int) : Nat → List VscRange → Int × List BranchCoverage
  | _, [] => (0, [])
  | i, location :: rest =>
    let branchHit := counts.getD i 0
    let tail := buildBranchCoverage opts type counts (i + 1) rest
    (branchHit + tail.1,
      ⟨mapCount opts branchHit, location,
        if type == "if" then some (if i == 0 then "if" else "else")
        else none⟩ :: tail.2)

/-- Embeds one iteration of the branch loop of `loadDetailedCoverage`
(src/index.ts:129-162) for the entry `key → branch`: resolve the group's
own range and every outcome's range; if the group range or any outcome
range fails to resolve, produce nothing (`// no-op`); otherwise emit one
`StatementCoverage` whose executed value is the mapped sum of the raw
outcome hit counts, carrying one `BranchCoverage` per outcome. -/
def branchDetail (opts : IIstanbulCoverageOptions) (uri : Uri)
    (b : List (String × List Int)) (key : String) (branch : BranchGroup) :
    Option FileCoverageDetail :=
  match mapRange opts uri branch.loc with
  | none => none
  | some loc =>
    let resolved := branch.locations.map (resolveBranchLocation opts uri branch)
    if resolved.any (·.isNone) then none
    else
      let counts := (b.lookup key).getD []
      let built := buildBranchCoverage opts branch.type counts 0 resolved.reduceOption
      some (.statement (mapCount opts built.1) loc built.2)

/-- Embeds one iteration of the statement loop of `loadDetailedCoverage`
(src/index.ts:164-172): emit a branchless `StatementCoverage` when the
entry's range resolves, nothing otherwise. -/
def stmtDetail (opts : IIstanbulCoverageOptions) (uri : Uri)
    (s : List (String × Int)) (key : String) (stmt : IstanbulRange) :
    Option FileCoverageDetail :=
  (mapRange opts uri stmt).map fun loc =>
    .statement (mapCount opts ((s.lookup key).getD 0)) loc []

/-- Embeds one iteration of the function loop of `loadDetailedCoverage`
(src/index.ts:174-184): emit a `DeclarationCoverage` when `stmt.loc`
resolves, nothing otherwise. -/
def fnDetail (opts : IIstanbulCoverageOptions) (uri : Uri)
    (f : List (String × Int)) (key : String) (fn : FnMapEntry) :
    Option FileCoverageDetail :=
  (mapRange opts uri fn.loc).map fun loc =>
    .declaration fn.name (mapCount opts ((f.lookup key).getD 0)) loc

/-- `vscode.TestCoverageCount` (covered/total pair). -/
structure TestCoverageCount where
  covered : Nat
  total : Nat
deriving DecidableEq, Repr

/-- A value of the `Record<string, number[] | number>` consumed by
`parseToSum`: a scalar hit count or a per-branch array of counts. -/
inductive HitCount where
  | num (n : Int)
  | arr (ns : List Int)
deriving DecidableEq, Repr

/-- JS truthiness of a hit count: `c ? 1 : 0` contributes one to `covered`
exactly when the count is nonzero. -/
def countHit (c : Int) : Nat := if c = 0 then 0 else 1

/-- The loop body of `parseToSum` (src/index.ts:235-245) acting on a
`(covered, total)` accumulator: an array value is folded element by
element, a scalar contributes once. -/
def parseStep (acc : Nat × Nat) (count : HitCount) : Nat × Nat :=
  match count with
  | .arr cs => cs.foldl (fun a c => (a.1 + countHit c, a.2 + 1)) acc
  | .num c => (acc.1 + countHit c, acc.2 + 1)

/-- Embeds `parseToSum` (src/index.ts:232-248): fold `parseStep` over the
table's values in iteration order, starting from `(0, 0)`. -/
def parseToSum (p : List (String × HitCount)) : TestCoverageCount :=
  let folded := (p.map Prod.snd).foldl parseStep (0, 0)
  ⟨folded.1, folded.2⟩

/-- The `total` contribution of one table value: one per scalar, the array
length per array (spec §4.4). Used to state the summary claims. -/
def hitTotal : HitCount → Nat
  | .num _ => 1
  | .arr cs => cs.length

/-- The `covered` contribution of one table value. -/
def hitCovered : HitCount → Nat
  | .num c => countHit c
  | .arr cs => (cs.map countHit).sum

/-- Number of scalar entries of a hit-count table (spec §8 wording). -/
def scalarEntries (p : List (String × HitCount)) : Nat :=
  p.countP fun kv => match kv.2 with | .num _ => true | .arr _ => false

/-- Summed lengths of all array entries of a hit-count table. -/
def arrayLengthSum (p : List (String × HitCount)) : Nat :=
  (p.map fun kv => match kv.2 with | .num _ => 0 | .arr cs => cs.length).sum

/-- Number of nonzero scalar entries of a hit-count table. -/
def nonzeroScalars (p : List (String × HitCount)) : Nat :=
  p.countP fun kv => match kv.2 with | .num c => c != 0 | .arr _ => false

/-- Number of nonzero array elements across all array entries. -/
def nonzeroArrayElems (p : List (String × HitCount)) : Nat :=
  (p.map fun kv => match kv.2 with | .num _ => 0 | .arr cs => cs.countP (· != 0)).sum

/-- `IstanbulFileCoverage` (src/index.ts:221-230): holds the raw data, the
compiled URI and the options, and the three eager summaries computed by
`parseToSum` at construction. -/
structure IstanbulFileCoverage where
  uri : Uri
  statementCoverage : TestCoverageCount
  branchCoverage : TestCoverageCount
  declarationCoverage : TestCoverageCount
  original : FileCoverageData
  compiledUri : Uri
  options : IIstanbulCoverageOptions

/-- The `IstanbulFileCoverage` constructor (src/index.ts:222-229):
`super(uri, parseToSum(original.s), parseToSum(original.b),
parseToSum(original.f))`. -/
def IstanbulFileCoverage.make (uri : Uri) (original : FileCoverageData)
    (compiledUri : Uri) (options : IIstanbulCoverageOptions) :
    IstanbulFileCoverage :=
  { uri
    statementCoverage := parseToSum (original.s.map fun kv => (kv.1, .num kv.2))
    branchCoverage := parseToSum (original.b.map fun kv => (kv.1, .arr kv.2))
    declarationCoverage := parseToSum (original.f.map fun kv => (kv.1, .num kv.2))
    original
    compiledUri
    options }

/-- The argument of `loadDetailedCoverage`: either a file produced by this
library or some foreign `vscode.FileCoverage` (`instanceof` test at
src/index.ts:121). -/
inductive SomeFileCoverage where
  | istanbul (file : IstanbulFileCoverage)
  | foreign (uri : Uri)

/-- Embeds `loadDetailedCoverage` (src/index.ts:117-189): a foreign file
yields `[]`; otherwise the branch, statement and function maps are walked,
each entry contributing a detail record exactly when its range resolves.
The source joins concurrent promises; their callbacks only append to
`details`, so the result is modelled as the list of emitted records in map
iteration order. -/
def loadDetailedCoverage (file : SomeFileCoverage) : List FileCoverageDetail :=
  match file with
  | .foreign _ => []
  | .istanbul file =>
    let opts := file.options
    (file.original.branchMap.filterMap fun kb =>
      branchDetail opts file.compiledUri file.original.b kb.1 kb.2)
    ++ (file.original.statementMap.filterMap fun ks =>
      stmtDetail opts file.compiledUri file.original.s ks.1 ks.2)
    ++ (file.original.fnMap.filterMap fun kf =>
      fnDetail opts file.compiledUri file.original.f kf.1 kf.2)

/-! ## Legacy evolution (`src/unnamed/part_000`) -/

namespace Legacy

/-- Default `mapLocation` of the legacy `IstanbulCoverage` class
(src/unnamed/part_000:24-30): wraps the given coordinates — documented by
the parameter names as already 0-based — into a location unchanged. -/
def defaultMapLocation (uri : Uri) (base0Line base0Column : Int) :
    Option VscLocation :=
  some (VscLocation.ofPosition uri ⟨base0Line, base0Column⟩)

/-- Embeds `IstanbulCoverage.mapRange` (src/unnamed/part_000:109-123),
parameterised by the overridable `mapLocation` method: the raw report
coordinates `range.start.line`/`range.end.line` are passed directly into
`mapLocation`'s `base0Line` parameter — no decrement occurs anywhere in the
legacy class. The decision table is the same as the canonical `mapRange`. -/
def mapRange (mapLoc : Uri → Int → Int → Option VscLocation) (uri : Uri)
    (range : IstanbulRange) : Option VscRange :=
  match mapLoc uri (range.start.line.getD 0) range.start.column,
        mapLoc uri (range.«end».line.getD 0) range.«end».column with
  | some s, some e => some ⟨s.range.start, e.range.«end»⟩
  | some s, none => some s.range
  | none, some e => some e.range
  | none, none => none

end Legacy

/-! ## Report loading (`IstanbulCoverageContext.apply`) -/

/-- The failure surfaced by the report-loading step of `apply`. The
`missingCoverage` constructor is `IstanbulMissingCoverageError`
(src/index.ts:39-45), carrying the directory and the stringified underlying
cause. The `unwrappedParseFailure` constructor models a JSON-syntax error
propagated unchanged to the caller, as an externally distinguishable
outcome; the embedded code decides which of the two outcomes a parse
failure produces. -/
inductive CoverageLoadError where
  | missingCoverage (dir : String) (cause : String)
  | unwrappedParseFailure (cause : String)
deriving DecidableEq, Repr

/-- `FINAL_COVERAGE_FILE_NAME` (src/index.ts:37). -/
def FINAL_COVERAGE_FILE_NAME : String := "coverage-final.json"

/-- `join(coverageDir, FINAL_COVERAGE_FILE_NAME)` (src/index.ts:74). -/
def joinPath (dir file : String) : String := dir ++ "/" ++ file

/-- Embeds the coverage-loading step of `IstanbulCoverageContext.apply`
(src/index.ts:71-78). The `try` block spans BOTH the file read and
`JSON.parse`; the single `catch` wraps whatever error escaped — a read
failure or a JSON-syntax failure alike — in
`IstanbulMissingCoverageError(coverageDir, e)`. The external file system
and JSON parser are parameters (`readFile`, `parseJson`), each returning
its value or the stringified error it threw. -/
def loadFinalCoverage {α : Type} (readFile : String → Except String String)
    (parseJson : String → Except String α) (coverageDir : String) :
    Except CoverageLoadError α :=
  match (readFile (joinPath coverageDir FINAL_COVERAGE_FILE_NAME)).bind parseJson with
  | .ok v => .ok v
  | .error e => .error (.missingCoverage coverageDir e)

/-! ## Concrete inputs used by witnesses and counterexamples -/

/-- A `mapLocation` callback behaving as the identity (spec §4.1's default
behaviour expressed as a configured mapper). -/
def identityMapper : Uri → Position → Option VscLocation :=
  fun uri pos => some (VscLocation.ofPosition uri pos)

/-- Options with boolean-count mode enabled. -/
def boolOpts : IIstanbulCoverageOptions :=
  { defaultOptions with booleanCounts := true }

/-- Options whose configured mapper maps no location at all. -/
def dropAllOpts : IIstanbulCoverageOptions :=
  { defaultOptions with mapLocation := some fun _ _ => none }

/-- A sample raw report range: line 3 col 2 through line 5 col 7. -/
def sampleRange : IstanbulRange := ⟨⟨some 3, 2⟩, ⟨some 5, 7⟩⟩

/-- A second sample raw report range. -/
def sampleRange2 : IstanbulRange := ⟨⟨some 10, 4⟩, ⟨some 12, 0⟩⟩

/-- A sample raw file coverage: two statements, one hit once and one never
(the spec §8 example `s = {"0": 1, "1": 0}`). -/
def sampleFile : FileCoverageData :=
  { path := "p"
    statementMap := [("0", sampleRange), ("1", sampleRange2)]
    s := [("0", 1), ("1", 0)]
    branchMap := []
    b := []
    fnMap := []
    f := [] }

/-- A sample two-outcome `"if"` branch group whose second outcome lacks a
start position (the implicit `else`). -/
def sampleIfGroup : BranchGroup :=
  { loc := ⟨⟨some 3, 2⟩, ⟨some 3, 20⟩⟩
    type := "if"
    locations := [⟨⟨some 3, 2⟩, ⟨some 3, 20⟩⟩, ⟨⟨none, 0⟩, ⟨none, 0⟩⟩] }

/-! ## Helper lemmas -/

theorem arrFoldl_eq (cs : List Int) (a b : Nat) :
    cs.foldl (fun acc c => (acc.1 + countHit c, acc.2 + 1)) (a, b)
      = (a + (cs.map countHit).sum, b + cs.length) := by
  induction cs generalizing a b with
  | nil => simp
  | cons c cs ih => simp [ih]; omega

theorem parseFoldl_eq (vs : List HitCount) (a b : Nat) :
    vs.foldl parseStep (a, b)
      = (a + (vs.map hitCovered).sum, b + (vs.map hitTotal).sum) := by
  induction vs generalizing a b with
  | nil => simp
  | cons v vs ih =>
    cases v with
    | num c =>
      simp only [List.foldl_cons, parseStep, ih, List.map_cons, List.sum_cons,
        hitCovered, hitTotal, Prod.mk.injEq]
      omega
    | arr cs =>
      simp only [List.foldl_cons, parseStep, arrFoldl_eq, ih, List.map_cons,
        List.sum_cons, hitCovered, hitTotal, Prod.mk.injEq]
      omega

theorem parseToSum_eq (p : List (String × HitCount)) :
    parseToSum p
      = ⟨((p.map Prod.snd).map hitCovered).sum, ((p.map Prod.snd).map hitTotal).sum⟩ := by
  unfold parseToSum
  rw [show ((0, 0) : Nat × Nat) = (0, 0) from rfl, parseFoldl_eq]
  simp

theorem countHit_sum_eq_countP (cs : List Int) :
    (cs.map countHit).sum = cs.countP (· != 0) := by
  induction cs with
  | nil => simp
  | cons c cs ih =>
    by_cases h : c = 0 <;>
      simp only [List.map_cons, List.sum_cons, countHit, h, ih,
        List.countP_cons] <;>
      simp [h] <;> omega

theorem hitTotal_sum_split (p : List (String × HitCount)) :
    ((p.map Prod.snd).map hitTotal).sum = scalarEntries p + arrayLengthSum p := by
  simp only [scalarEntries, arrayLengthSum]
  induction p with
  | nil => simp
  | cons kv p ih =>
    obtain ⟨k, v⟩ := kv
    cases v <;>
      simp only [List.map_cons, List.sum_cons, List.countP_cons, hitTotal, ih] <;>
      simp <;> omega

theorem hitCovered_sum_split (p : List (String × HitCount)) :
    ((p.map Prod.snd).map hitCovered).sum = nonzeroScalars p + nonzeroArrayElems p := by
  simp only [nonzeroScalars, nonzeroArrayElems]
  induction p with
  | nil => simp
  | cons kv p ih =>
    obtain ⟨k, v⟩ := kv
    cases v with
    | num c =>
      by_cases h : c = 0 <;>
        simp only [List.map_cons, List.sum_cons, List.countP_cons, hitCovered,
          countHit, h, ih] <;>
        simp [h] <;> omega
    | arr cs =>
      simp only [List.map_cons, List.sum_cons, List.countP_cons, hitCovered, ih,
        countHit_sum_eq_countP]
      simp
      omega

theorem scalarTable_total (l : List (String × Int)) :
    (((l.map fun kv => ((kv.1 : String), HitCount.num kv.2)).map Prod.snd).map
      hitTotal).sum = l.length := by
  induction l with
  | nil => simp
  | cons kv l ih =>
    simp only [List.map_cons, List.sum_cons, hitTotal, ih, List.length_cons]
    omega

theorem scalarTable_covered (l : List (String × Int)) :
    (((l.map fun kv => ((kv.1 : String), HitCount.num kv.2)).map Prod.snd).map
      hitCovered).sum = l.countP fun kv => kv.2 != 0 := by
  induction l with
  | nil => simp
  | cons kv l ih =>
    by_cases h : kv.2 = 0 <;>
      simp only [List.map_cons, List.sum_cons, hitCovered, countHit, h, ih,
        List.countP_cons] <;>
      simp [h] <;> omega

theorem mapRange_identity (opts : IIstanbulCoverageOptions) (uri : Uri)
    (r : IstanbulRange) (h : opts.mapLocation = none) :
    mapRange opts uri r
      = some ⟨⟨r.start.line.getD 0 - 1, r.start.column⟩,
              ⟨r.«end».line.getD 0 - 1, r.«end».column⟩⟩ := by
  simp [mapRange, mapLocation, h, VscLocation.ofPosition]

theorem buildBranchCoverage_snd_length (opts : IIstanbulCoverageOptions)
    (type : String) (counts : List Int) :
    ∀ (rs : List VscRange) (i : Nat),
      (buildBranchCoverage opts type counts i rs).2.length = rs.length := by
  intro rs
  induction rs with
  | nil => intro i; rfl
  | cons r rs ih => intro i; simp [buildBranchCoverage, ih]

theorem buildBranchCoverage_fst_sum (opts : IIstanbulCoverageOptions)
    (type : String) (counts : List Int) :
    ∀ (rs : List VscRange) (i : Nat), counts.length = i + rs.length →
      (buildBranchCoverage opts type counts i rs).1 = (counts.drop i).sum := by
  intro rs
  induction rs with
  | nil =>
    intro i h
    simp only [List.length_nil, Nat.add_zero] at h
    simp [buildBranchCoverage, ← h, List.drop_length]
  | cons r rs ih =>
    intro i h
    simp only [List.length_cons] at h
    have hi : i < counts.length := by omega
    have h2 : counts.length = (i + 1) + rs.length := by omega
    simp only [buildBranchCoverage, ih (i + 1) h2]
    rw [List.drop_eq_getElem_cons hi, List.sum_cons]
    congr 1
    rw [List.getD_eq_getElem?_getD, List.getElem?_eq_getElem hi]
    rfl

theorem buildBranchCoverage_labels_ne (opts : IIstanbulCoverageOptions)
    (type : String) (counts : List Int) (h : type ≠ "if") :
    ∀ (rs : List VscRange) (i : Nat),
      ∀ bc ∈ (buildBranchCoverage opts type counts i rs).2, bc.label = none := by
  have hb : (type == "if") = false := beq_eq_false_iff_ne.mpr h
  intro rs
  induction rs with
  | nil => intro i bc hbc; simp [buildBranchCoverage] at hbc
  | cons r rs ih =>
    intro i bc hbc
    simp only [buildBranchCoverage, List.mem_cons] at hbc
    rcases hbc with rfl | hbc
    · simp [hb]
    · exact ih (i + 1) bc hbc

/-! ## Claim theorems -/

/-- C10: an input file object that is not an `IstanbulFileCoverage`
(`instanceof` test at src/index.ts:121) makes `loadDetailedCoverage` return
the empty list, with no error and no resolution attempted. -/
theorem loadDetailedCoverage_foreign_empty :
    ∀ u : Uri, loadDetailedCoverage (.foreign u) = [] := fun _ => rfl

/-- C5 (code bug in the legacy evolution): the canonical `mapLocation`
(src/index.ts:213) decrements the 1-based report line exactly once and
leaves the column unchanged, but the legacy `IstanbulCoverage.mapRange`
(src/unnamed/part_000:109-123) passes the raw 1-based line unchanged into
the `base0Line` parameter of its `mapLocation` method — no decrement ever
happens in the legacy class, contradicting that parameter's own 0-based
naming. At the raw range `(1,5)→(1,9)` the legacy result keeps line 1 where
the claim requires line 0. -/
theorem legacy_line_decrement_missing :
    mapLocation defaultOptions "file.ts" ⟨some 1, 5⟩
        = some (VscLocation.ofPosition "file.ts" ⟨0, 5⟩)
    ∧ Legacy.mapRange Legacy.defaultMapLocation "file.ts"
        ⟨⟨some 1, 5⟩, ⟨some 1, 9⟩⟩
        = some ⟨⟨1, 5⟩, ⟨1, 9⟩⟩
    ∧ Legacy.mapRange Legacy.defaultMapLocation "file.ts"
        ⟨⟨some 1, 5⟩, ⟨some 1, 9⟩⟩
        ≠ some ⟨⟨0, 5⟩, ⟨0, 9⟩⟩ := by
  refine ⟨by decide, by decide, by decide⟩

/-- C1: the `mapRange` decision table (src/index.ts:192-206): both
endpoints mapped — new range from the mapped start's own start to the
mapped end's own end; exactly one mapped — that location's own range;
neither — absent, and the enclosing statement detail is dropped. -/
theorem mapRange_decision_table (opts : IIstanbulCoverageOptions) (uri : Uri)
    (range : IstanbulRange) :
    (∀ s e, mapLocation opts uri range.start = some s →
      mapLocation opts uri range.«end» = some e →
      mapRange opts uri range = some ⟨s.range.start, e.range.«end»⟩)
    ∧ (∀ s, mapLocation opts uri range.start = some s →
      mapLocation opts uri range.«end» = none →
      mapRange opts uri range = some s.range)
    ∧ (∀ e, mapLocation opts uri range.start = none →
      mapLocation opts uri range.«end» = some e →
      mapRange opts uri range = some e.range)
    ∧ (mapLocation opts uri range.start = none →
      mapLocation opts uri range.«end» = none →
      mapRange opts uri range = none)
    ∧ (mapRange opts uri range = none →
      ∀ (s : List (String × Int)) (key : String),
        stmtDetail opts uri s key range = none) := by
  refine ⟨?_, ?_, ?_, ?_, ?_⟩
  · intro s e hs he; simp [mapRange, hs, he]
  · intro s hs he; simp [mapRange, hs, he]
  · intro e hs he; simp [mapRange, hs, he]
  · intro hs he; simp [mapRange, hs, he]
  · intro h s key; simp [stmtDetail, h]

/-- C1 witness: with no configured mapper both endpoints of `sampleRange`
map, and the resolved range runs from the mapped start's start `(2,2)` to
the mapped end's end `(4,7)`. -/
theorem mapRange_decision_table_witness :
    mapRange defaultOptions "u" sampleRange = some ⟨⟨2, 2⟩, ⟨4, 7⟩⟩ :=
  (mapRange_decision_table defaultOptions "u" sampleRange).1
    (VscLocation.ofPosition "u" ⟨2, 2⟩) (VscLocation.ofPosition "u" ⟨4, 7⟩)
    rfl rfl

/-- C6: the three `SummaryCount`s computed at construction are identical
under any two option values (in particular `booleanCounts = true` vs
`false` — `parseToSum` at src/index.ts:228 never consults the options);
the flag decides only `DetailRecord.hit` values via `mapCount`
(src/index.ts:219): boolean mode yields `count > 0`, raw mode the count. -/
theorem booleanCounts_summary_independence :
    (∀ (uri : Uri) (orig : FileCoverageData) (comp : Uri)
        (o1 o2 : IIstanbulCoverageOptions),
      (IstanbulFileCoverage.make uri orig comp o1).statementCoverage
          = (IstanbulFileCoverage.make uri orig comp o2).statementCoverage
        ∧ (IstanbulFileCoverage.make uri orig comp o1).branchCoverage
          = (IstanbulFileCoverage.make uri orig comp o2).branchCoverage
        ∧ (IstanbulFileCoverage.make uri orig comp o1).declarationCoverage
          = (IstanbulFileCoverage.make uri orig comp o2).declarationCoverage)
    ∧ (∀ (opts : IIstanbulCoverageOptions) (n : Int), opts.booleanCounts = true →
        mapCount opts n = .bool (decide (n > 0)))
    ∧ (∀ (opts : IIstanbulCoverageOptions) (n : Int), opts.booleanCounts = false →
        mapCount opts n = .num n) := by
  refine ⟨fun _ _ _ _ _ => ⟨rfl, rfl, rfl⟩, ?_, ?_⟩
  · intro opts n h; simp [mapCount, h]
  · intro opts n h; simp [mapCount, h]

/-- C6 witness: a raw hit count of 5 becomes the boolean `true` in
boolean-count mode and stays `5` in raw mode; the statement summary of the
sample file is `(covered 1, total 2)` under either mode. -/
theorem booleanCounts_summary_independence_witness :
    mapCount boolOpts 5 = .bool true
    ∧ mapCount defaultOptions 5 = .num 5
    ∧ (IstanbulFileCoverage.make "u" sampleFile "c" boolOpts).statementCoverage
      = (IstanbulFileCoverage.make "u" sampleFile "c" defaultOptions).statementCoverage :=
  ⟨(booleanCounts_summary_independence.2.1 boolOpts 5 rfl).trans (by decide),
    booleanCounts_summary_independence.2.2 defaultOptions 5 rfl,
    (booleanCounts_summary_independence.1 "u" sampleFile "c" boolOpts
      defaultOptions).1⟩

/-- C7: with no configured mapper (or with the identity mapper configured),
`mapRange` resolves any raw range whose endpoint lines are defined to the
numerically equal range after decrementing the 1-based lines of both
endpoints and keeping the columns. -/
theorem mapRange_identity_roundtrip (opts : IIstanbulCoverageOptions)
    (uri : Uri) (range : IstanbulRange) (ls le : Int)
    (hm : opts.mapLocation = none ∨ opts.mapLocation = some identityMapper)
    (hs : range.start.line = some ls) (he : range.«end».line = some le) :
    mapRange opts uri range
      = some ⟨⟨ls - 1, range.start.column⟩, ⟨le - 1, range.«end».column⟩⟩ := by
  rcases hm with h | h <;>
    simp [mapRange, mapLocation, h, identityMapper, VscLocation.ofPosition, hs, he]

/-- C7 witness: the raw range `(10,4)→(12,0)` resolves under the default
(unconfigured) mapper to `(9,4)→(11,0)`. -/
theorem mapRange_identity_roundtrip_witness :
    mapRange defaultOptions "u" sampleRange2 = some ⟨⟨9, 4⟩, ⟨11, 0⟩⟩ := by
  have h := mapRange_identity_roundtrip defaultOptions "u" sampleRange2 10 12
    (Or.inl rfl) rfl rfl
  simpa using h

/-- C9 counterexample: when the file reads fine but `JSON.parse` fails, the
`try` block of `apply` (src/index.ts:72-78) — which spans both the read and
the parse — wraps the parse failure in `IstanbulMissingCoverageError`
(`missingCoverage`), which is distinct from propagating it unchanged
(`unwrappedParseFailure`), contrary to the claim. -/
theorem parse_failure_wrapped_counterexample :
    loadFinalCoverage (fun _ => .ok "not json")
      (fun _ => (.error "SyntaxError: Unexpected token" : Except String Unit))
      "covdir"
      = .error (.missingCoverage "covdir" "SyntaxError: Unexpected token")
    ∧ CoverageLoadError.missingCoverage "covdir" "SyntaxError: Unexpected token"
      ≠ CoverageLoadError.unwrappedParseFailure "SyntaxError: Unexpected token" :=
  ⟨rfl, by decide⟩

/-- C9 amended: every failure of the read-and-parse step — the file being
missing/unreadable or its contents failing to parse as JSON — is wrapped in
the named missing-report failure carrying the directory and the underlying
cause; no failure is ever propagated unwrapped, and a successful parse is
returned as-is. -/
theorem load_failures_all_wrapped {α : Type}
    (readFile : String → Except String String)
    (parseJson : String → Except String α) (dir : String) :
    (∀ e, readFile (joinPath dir FINAL_COVERAGE_FILE_NAME) = .error e →
      loadFinalCoverage readFile parseJson dir = .error (.missingCoverage dir e))
    ∧ (∀ text e, readFile (joinPath dir FINAL_COVERAGE_FILE_NAME) = .ok text →
      parseJson text = .error e →
      loadFinalCoverage readFile parseJson dir = .error (.missingCoverage dir e))
    ∧ (∀ text v, readFile (joinPath dir FINAL_COVERAGE_FILE_NAME) = .ok text →
      parseJson text = .ok v →
      loadFinalCoverage readFile parseJson dir = .ok v)
    ∧ (∀ e, loadFinalCoverage readFile parseJson dir
      ≠ .error (.unwrappedParseFailure e)) := by
  refine ⟨?_, ?_, ?_, ?_⟩
  · intro e h; simp [loadFinalCoverage, h, Except.bind]
  · intro text e h1 h2; simp [loadFinalCoverage, h1, h2, Except.bind]
  · intro text v h1 h2; simp [loadFinalCoverage, h1, h2, Except.bind]
  · intro e
    unfold loadFinalCoverage
    cases h : (readFile (joinPath dir FINAL_COVERAGE_FILE_NAME)).bind parseJson <;>
      simp

/-- C9 amended witness: a concrete readable-but-malformed report is wrapped
into the named failure for directory `"d"`. -/
theorem load_failures_all_wrapped_witness :
    loadFinalCoverage (fun _ => .ok "x")
      (fun _ => (.error "bad" : Except String Unit)) "d"
      = .error (.missingCoverage "d" "bad") :=
  (load_failures_all_wrapped (fun _ => .ok "x")
    (fun _ => (.error "bad" : Except String Unit)) "d").2.1 "x" "bad" rfl rfl

/-- C4: for every hit-count table, the `SummaryCount` computed by
`parseToSum` (src/index.ts:232-248) has `total` equal to the number of
scalar entries plus the summed lengths of all array entries, and `covered`
equal to the number of nonzero scalars plus the number of nonzero array
elements. -/
theorem parseToSum_counts (p : List (String × HitCount)) :
    (parseToSum p).total = scalarEntries p + arrayLengthSum p
    ∧ (parseToSum p).covered = nonzeroScalars p + nonzeroArrayElems p := by
  rw [parseToSum_eq]
  exact ⟨hitTotal_sum_split p, hitCovered_sum_split p⟩

/-- C2: a branch group's `StatementCoverage` (with one `BranchCoverage` per
outcome) is emitted iff the group's own range and every outcome's range all
resolve (src/index.ts:142-144: `!loc || branches.some(b => !b)` drops the
whole entry); when emitted (given the report invariant that `b[key]` has
one count per outcome) the statement-level hit value is the mapped sum of
the raw outcome hit counts. -/
theorem branch_group_all_or_nothing (opts : IIstanbulCoverageOptions)
    (uri : Uri) (b : List (String × List Int)) (key : String)
    (branch : BranchGroup) :
    ((branchDetail opts uri b key branch).isSome ↔
      ((mapRange opts uri branch.loc).isSome ∧
        ∀ l ∈ branch.locations,
          (resolveBranchLocation opts uri branch l).isSome))
    ∧ (((b.lookup key).getD []).length = branch.locations.length →
      ∀ d, branchDetail opts uri b key branch = some d →
        ∃ loc brs,
          d = .statement (mapCount opts (((b.lookup key).getD []).sum)) loc brs
          ∧ brs.length = branch.locations.length) := by
  constructor
  · cases h1 : mapRange opts uri branch.loc with
    | none => simp [branchDetail, h1]
    | some loc =>
      cases h2 : (branch.locations.map
          (resolveBranchLocation opts uri branch)).any (·.isNone) with
      | false =>
        have hsome : (branchDetail opts uri b key branch).isSome = true := by
          simp [branchDetail, h1, h2]
        simp only [hsome, true_iff]
        refine ⟨by simp [h1], fun l hl => ?_⟩
        have hno := List.any_eq_false.mp h2 _
          (List.mem_map_of_mem (resolveBranchLocation opts uri branch) hl)
        cases hres : resolveBranchLocation opts uri branch l with
        | none => rw [hres] at hno; exact absurd rfl hno
        | some r => rfl
      | true =>
        have hnone : branchDetail opts uri b key branch = none := by
          simp [branchDetail, h1, h2]
        simp only [hnone, Option.isSome_none, Bool.false_eq_true, false_iff,
          not_and]
        intro _ hforall
        obtain ⟨o, ho, hno⟩ := List.any_eq_true.mp h2
        obtain ⟨l, hl, rfl⟩ := List.mem_map.mp ho
        have hs := hforall l hl
        cases hres : resolveBranchLocation opts uri branch l with
        | none => rw [hres] at hs; exact absurd hs (by simp)
        | some r => rw [hres] at hno; exact absurd hno (by simp)
  · intro hlen d hd
    cases h1 : mapRange opts uri branch.loc with
    | none => simp [branchDetail, h1] at hd
    | some loc =>
      simp only [branchDetail, h1] at hd
      split at hd
      · cases hd
      · next h2 =>
        have hall : ∀ o ∈ (branch.locations.map
            (resolveBranchLocation opts uri branch)), o.isSome := by
          intro o ho
          have hno := List.any_eq_false.mp (Bool.of_not_eq_true h2) o ho
          cases o with
          | none => exact absurd rfl hno
          | some r => rfl
        have hrlen : (branch.locations.map
            (resolveBranchLocation opts uri branch)).reduceOption.length
            = branch.locations.length := by
          rw [List.reduceOption_length_eq_iff.mpr hall, List.length_map]
        injection hd with hd
        refine ⟨loc, (buildBranchCoverage opts branch.type
          ((b.lookup key).getD []) 0 ((branch.locations.map
            (resolveBranchLocation opts uri branch)).reduceOption)).2, ?_, ?_⟩
        · rw [← hd]
          have hsum := buildBranchCoverage_fst_sum opts branch.type
            ((b.lookup key).getD []) ((branch.locations.map
              (resolveBranchLocation opts uri branch)).reduceOption) 0
            (by rw [hrlen, hlen, Nat.zero_add])
          rw [List.drop_zero] at hsum
          rw [hsum]
        · rw [buildBranchCoverage_snd_length, hrlen]

/-- C2 witness: a two-outcome `"if"` group with hit counts `[1, 0]` under
the default options emits the statement detail with hit `1 = 1 + 0` and
two branch records. -/
theorem branch_group_all_or_nothing_witness :
    branchDetail defaultOptions "u" [("0", [1, 0])] "0" sampleIfGroup
      = some (.statement (.num 1) ⟨⟨2, 2⟩, ⟨2, 20⟩⟩
          [⟨.num 1, ⟨⟨2, 2⟩, ⟨2, 20⟩⟩, some "if"⟩,
            ⟨.num 0, ⟨⟨2, 20⟩, ⟨2, 20⟩⟩, some "else"⟩])
    ∧ ∃ loc brs,
        (FileCoverageDetail.statement (.num 1) ⟨⟨2, 2⟩, ⟨2, 20⟩⟩
          [⟨.num 1, ⟨⟨2, 2⟩, ⟨2, 20⟩⟩, some "if"⟩,
            ⟨.num 0, ⟨⟨2, 20⟩, ⟨2, 20⟩⟩, some "else"⟩])
          = .statement (mapCount defaultOptions
              ((([("0", [1, 0])].lookup "0").getD ([] : List Int)).sum)) loc brs
        ∧ brs.length = sampleIfGroup.locations.length :=
  ⟨by decide,
    (branch_group_all_or_nothing defaultOptions "u" [("0", [1, 0])] "0"
      sampleIfGroup).2 rfl _ (by decide)⟩

/-- C3: an outcome with no real start position has the zero-length
synthetic range `group.loc.end → group.loc.end` resolved in its place
(src/index.ts:133-140); in a two-outcome `"if"` group whose second outcome
lacks a start, the emitted second `BranchCoverage` is zero-length at the
group's own (0-based adjusted) end and labelled `"else"` while outcome 0 is
labelled `"if"`; outcomes of any other group type carry no label. -/
theorem implicit_else_synthesis :
    (∀ (opts : IIstanbulCoverageOptions) (uri : Uri) (branch : BranchGroup)
        (l : IstanbulRange), l.start.line = none →
      resolveBranchLocation opts uri branch l
        = mapRange opts uri ⟨branch.loc.«end», branch.loc.«end»⟩)
    ∧ (∀ (opts : IIstanbulCoverageOptions) (uri : Uri)
        (b : List (String × List Int)) (key : String) (branch : BranchGroup)
        (l0 l1 : IstanbulRange) (en : Int),
      opts.mapLocation = none → branch.type = "if" →
      branch.locations = [l0, l1] → l0.start.line.isSome = true →
      l1.start.line = none → branch.loc.«end».line = some en →
      ∃ hit loc bc0 bc1,
        branchDetail opts uri b key branch = some (.statement hit loc [bc0, bc1])
        ∧ bc1.location
          = ⟨⟨en - 1, branch.loc.«end».column⟩, ⟨en - 1, branch.loc.«end».column⟩⟩
        ∧ bc1.label = some "else" ∧ bc0.label = some "if")
    ∧ (∀ (opts : IIstanbulCoverageOptions) (uri : Uri)
        (b : List (String × List Int)) (key : String) (branch : BranchGroup),
      branch.type ≠ "if" →
      ∀ hit loc brs, branchDetail opts uri b key branch
        = some (.statement hit loc brs) → ∀ bc ∈ brs, bc.label = none) := by
  refine ⟨?_, ?_, ?_⟩
  · intro opts uri branch l h
    simp [resolveBranchLocation, h]
  · intro opts uri b key branch l0 l1 en hm htype hlocs hl0 hl1 hend
    have hg := mapRange_identity opts uri branch.loc hm
    have h0 := mapRange_identity opts uri l0 hm
    have h1 := mapRange_identity opts uri ⟨branch.loc.«end», branch.loc.«end»⟩ hm
    simp only [hend, Option.getD_some] at hg h1
    refine ⟨mapCount opts ((((b.lookup key).getD []).getD 0 0)
        + ((((b.lookup key).getD []).getD 1 0) + 0)),
      ⟨⟨branch.loc.start.line.getD 0 - 1, branch.loc.start.column⟩,
        ⟨en - 1, branch.loc.«end».column⟩⟩,
      ⟨mapCount opts (((b.lookup key).getD []).getD 0 0),
        ⟨⟨l0.start.line.getD 0 - 1, l0.start.column⟩,
          ⟨l0.«end».line.getD 0 - 1, l0.«end».column⟩⟩, some "if"⟩,
      ⟨mapCount opts (((b.lookup key).getD []).getD 1 0),
        ⟨⟨en - 1, branch.loc.«end».column⟩, ⟨en - 1, branch.loc.«end».column⟩⟩,
        some "else"⟩, ?_, rfl, rfl, rfl⟩
    simp only [branchDetail, hg, hlocs, List.map_cons, List.map_nil,
      resolveBranchLocation, hl0, if_true, hl1, Option.isSome_none,
      Bool.false_eq_true, if_false, h0, h1, List.any_cons, List.any_nil,
      Option.isNone_some, Bool.false_or, Bool.or_false, Bool.or_self,
      List.reduceOption_cons_of_some, List.reduceOption_nil,
      buildBranchCoverage, htype]
    rfl
  · intro opts uri b key branch hne hit loc brs hd bc hbc
    cases h1 : mapRange opts uri branch.loc with
    | none => simp [branchDetail, h1] at hd
    | some gl =>
      simp only [branchDetail, h1] at hd
      split at hd
      · cases hd
      · injection hd with hd
        injection hd with hhit hloc hbrs
        subst hbrs
        exact buildBranchCoverage_labels_ne opts branch.type
          ((b.lookup key).getD []) hne _ 0 bc hbc

/-- C3 witness: the sample two-outcome `"if"` group (outcome 1 lacking a
start) emits a second branch record that is zero-length at the group's
adjusted end `(2,20)` and labelled `"else"`, with outcome 0 labelled
`"if"`. -/
theorem implicit_else_synthesis_witness :
    ∃ hit loc bc0 bc1,
      branchDetail defaultOptions "u" [("0", [1, 0])] "0" sampleIfGroup
        = some (.statement hit loc [bc0, bc1])
      ∧ bc1.location = ⟨⟨2, 20⟩, ⟨2, 20⟩⟩
      ∧ bc1.label = some "else" ∧ bc0.label = some "if" :=
  implicit_else_synthesis.2.1 defaultOptions "u" [("0", [1, 0])] "0"
    sampleIfGroup ⟨⟨some 3, 2⟩, ⟨some 3, 20⟩⟩ ⟨⟨none, 0⟩, ⟨none, 0⟩⟩ 3
    rfl rfl rfl rfl rfl rfl

/-- C8: a statement or function entry whose range fails to resolve is
absent from the detail list (src/index.ts:166-171 and 176-183 emit only on
a resolved `loc`); no error is raised (the extraction is total); and the
summaries computed at construction are independent of the options — hence
of mapping success — with the statement summary counting every raw `s`
entry and every nonzero raw hit count. -/
theorem unresolved_entry_dropped_summary_intact :
    (∀ (opts : IIstanbulCoverageOptions) (uri : Uri) (s : List (String × Int))
        (key : String) (stmt : IstanbulRange),
      mapRange opts uri stmt = none → stmtDetail opts uri s key stmt = none)
    ∧ (∀ (opts : IIstanbulCoverageOptions) (uri : Uri)
        (f : List (String × Int)) (key : String) (fn : FnMapEntry),
      mapRange opts uri fn.loc = none → fnDetail opts uri f key fn = none)
    ∧ (∀ (uri : Uri) (orig : FileCoverageData) (comp : Uri)
        (o1 o2 : IIstanbulCoverageOptions),
      (IstanbulFileCoverage.make uri orig comp o1).statementCoverage
          = (IstanbulFileCoverage.make uri orig comp o2).statementCoverage
        ∧ (IstanbulFileCoverage.make uri orig comp o1).branchCoverage
          = (IstanbulFileCoverage.make uri orig comp o2).branchCoverage
        ∧ (IstanbulFileCoverage.make uri orig comp o1).declarationCoverage
          = (IstanbulFileCoverage.make uri orig comp o2).declarationCoverage)
    ∧ (∀ (uri : Uri) (orig : FileCoverageData) (comp : Uri)
        (opts : IIstanbulCoverageOptions),
      (IstanbulFileCoverage.make uri orig comp opts).statementCoverage.total
          = orig.s.length
        ∧ (IstanbulFileCoverage.make uri orig comp opts).statementCoverage.covered
          = orig.s.countP fun kv => kv.2 != 0) := by
  refine ⟨?_, ?_, fun _ _ _ _ _ => ⟨rfl, rfl, rfl⟩, ?_⟩
  · intro opts uri s key stmt h; simp [stmtDetail, h]
  · intro opts uri f key fn h; simp [fnDetail, h]
  · intro uri orig comp opts
    constructor
    · show (parseToSum (orig.s.map fun kv => (kv.1, .num kv.2))).total = _
      rw [parseToSum_eq]
      exact scalarTable_total orig.s
    · show (parseToSum (orig.s.map fun kv => (kv.1, .num kv.2))).covered = _
      rw [parseToSum_eq]
      exact scalarTable_covered orig.s

/-- C8 witness: under a mapper that maps nothing, the sample statement
entry produces no detail record, while the statement summary of the sample
file still counts both raw entries and the one nonzero hit count. -/
theorem unresolved_entry_dropped_summary_intact_witness :
    stmtDetail dropAllOpts "u" [] "0" sampleRange = none
    ∧ (IstanbulFileCoverage.make "u" sampleFile "c" dropAllOpts).statementCoverage.total
      = 2
    ∧ (IstanbulFileCoverage.make "u" sampleFile "c" dropAllOpts).statementCoverage.covered
      = 1 :=
  ⟨unresolved_entry_dropped_summary_intact.1 dropAllOpts "u" [] "0" sampleRange
      rfl,
    (unresolved_entry_dropped_summary_intact.2.2.2 "u" sampleFile "c"
      dropAllOpts).1,
    (unresolved_entry_dropped_summary_intact.2.2.2 "u" sampleFile "c"
      dropAllOpts).2.trans (by decide)⟩

end IstanbulToVscode
